import Mathlib

/-!
Verification of the Project Atlas task-board state engine.

The definitions below are shallow embeddings of the JavaScript source:

* `atlas-interactive.js` — two revisions of the main application script.
  The first revision (lines 1-1042) and the enhanced revision
  (lines 1043-2147) share the seed data; the enhanced revision adds
  `safeJSON`, `reindexTasks` and hardened handlers.
* `unnamed/part_000` — the "fix task opening" revision hosting
  `indexTasks`, `openTaskByIdOrName`, `deleteTask`, the add-task modal and
  the kanban drop handler.

JavaScript `Map` objects are modelled by insertion-ordered association
lists (`jsMapSet` / `jsMapGet`), arrays by lists, and `localStorage` by a
record of optional serialized collections.  Strings are Lean strings with
ASCII case folding standing in for `toLowerCase`.
-/

namespace ProjectAtlas

/-- JS whitespace class used by `trim` and the `\s` regex (ASCII model). -/
def isJsWs (c : Char) : Bool := c.isWhitespace

/-- Model of `String.prototype.toLowerCase` (ASCII case folding). -/
def jsLower (s : String) : String := String.mk (s.toList.map Char.toLower)

/-- Model of `String.prototype.trim`: drop whitespace at both ends. -/
def jsTrim (s : String) : String :=
  String.mk (((s.toList.dropWhile isJsWs).reverse.dropWhile isJsWs).reverse)

/-- The normalization `x.toLowerCase().trim()` used for query and title keys. -/
def jsNorm (s : String) : String := jsTrim (jsLower s)

/-- leadMatch needle hay: the needle is a leading segment of the haystack. -/
def leadMatch : List Char → List Char → Bool
  | [], _ => true
  | _ :: _, [] => false
  | a :: as, b :: bs => a == b && leadMatch as bs

/-- hasSub hay needle: the needle occurs contiguously inside the haystack. -/
def hasSub : List Char → List Char → Bool
  | [], needle => needle.isEmpty
  | c :: rest, needle => leadMatch needle (c :: rest) || hasSub rest needle

/-- Model of `String.prototype.includes`. -/
def jsIncludes (s sub : String) : Bool := hasSub s.toList sub.toList

/-- Auxiliary scanner for `replace(/\s+/g, '-')`: a run of whitespace
becomes a single dash; the boolean records whether the previous character
was part of a whitespace run. -/
def dashifyAux : Bool → List Char → List Char
  | _, [] => []
  | prevWs, c :: rest =>
    if isJsWs c then
      if prevWs then dashifyAux true rest else '-' :: dashifyAux true rest
    else c :: dashifyAux false rest

/-- Model of `value.replace(/\s+/g, '-')`. -/
def dashify (s : String) : String := String.mk (dashifyAux false s.toList)

/-- Lookup in a JS `Map` modelled as an insertion-ordered association list. -/
def jsMapGet (m : List (String × α)) (k : String) : Option α :=
  (m.find? (fun p => p.1 == k)).map (fun p => p.2)

/-- `Map.prototype.set`: overwrite the value of an existing key in place,
or append a new binding at the end. -/
def jsMapSet (m : List (String × α)) (k : String) (v : α) : List (String × α) :=
  if m.any (fun p => p.1 == k) then
    m.map (fun p => if p.1 == k then (p.1, v) else p)
  else m ++ [(k, v)]

/-- The `if (!m.has(k)) m.set(k, []); m.get(k).push(v)` idiom of
`reindexTasks`: append `v` to the list stored at `k`, creating the entry
at the end of the map when absent. -/
def mapPush (m : List (String × List String)) (k v : String) : List (String × List String) :=
  if m.any (fun p => p.1 == k) then
    m.map (fun p => if p.1 == k then (p.1, p.2 ++ [v]) else p)
  else m ++ [(k, [v])]

/-- Task record.  The two `atlas-interactive.js` revisions populate
`id/title/status/project/priority/labels/dueDate`; the `part_000` revision
additionally uses `description/estimate/tags/dependencies/photos/createdAt/updatedAt`.
Fields a revision does not set stay at their defaults (absent in JS). -/
structure Task where
  id : String
  title : String
  status : String
  project : String
  priority : String
  dueDate : Option String := none
  labels : List String := []
  description : Option String := none
  estimate : Option Nat := none
  tags : List String := []
  dependencies : List String := []
  photos : List String := []
  createdAt : Option String := none
  updatedAt : Option String := none
deriving DecidableEq

/-- Project record (both revisions; optional fields cover the new-project form). -/
structure Project where
  id : String
  name : String
  status : String
  progress : Nat
  budget : Nat
  spent : Nat
  priority : Option String := none
  description : Option String := none
  timeline : Option String := none
  tasks : List String := []
deriving DecidableEq

/-- Document record from the seed data. -/
structure Document where
  id : String
  type : String
  project : String
  title : String
  date : String
  size : String
  photos : Option Nat := none
deriving DecidableEq

/-- Event record from the seed data and the add-event form. -/
structure Event where
  id : String
  title : String
  date : String
  project : String
  duration : Nat
  attendees : List String := []
  notes : String := ""
deriving DecidableEq

/-- Model of the `pad2` helper: left-pad a number to two digits. -/
def pad2 (n : Nat) : String := if n < 10 then "0" ++ toString n else toString n

/-- Model of `formatDateISO(new Date(y, mIdx, d))` where `mIdx` is the
0-based month index: the printed month is `mIdx + 1`. -/
def formatDateISO (y mIdx d : Nat) : String :=
  toString y ++ "-" ++ pad2 (mIdx + 1) ++ "-" ++ pad2 d

/-- Seed projects of `atlas-interactive.js` (both revisions, identical data). -/
def seedProjects : List Project :=
  [ { id := "kitchen", name := "Kitchen Renovation", status := "active",
      progress := 42, budget := 25000, spent := 11250, priority := some "high" },
    { id := "basement", name := "Basement Finishing", status := "active",
      progress := 65, budget := 18000, spent := 9000, priority := some "medium" },
    { id := "bathroom", name := "Bathroom Update", status := "planning",
      progress := 20, budget := 8000, spent := 1200, priority := some "medium" } ]

/-- Seed tasks of `atlas-interactive.js` (both revisions, identical data). -/
def seedTasks : List Task :=
  [ { id := "t1", title := "Replace attic insulation", status := "someday",
      project := "basement", priority := "low", labels := ["energy"], dueDate := none },
    { id := "t2", title := "Add greywater system", status := "someday",
      project := "bathroom", priority := "low", labels := ["plumbing"], dueDate := none },
    { id := "t3", title := "Order backsplash tiles", status := "planning",
      project := "kitchen", priority := "medium", labels := ["tiles", "shopping"],
      dueDate := some "Next week" },
    { id := "t4", title := "Get quote: egress window", status := "planning",
      project := "basement", priority := "medium", labels := ["contractor"], dueDate := none },
    { id := "t5", title := "Schedule tile install", status := "ready",
      project := "kitchen", priority := "high", labels := ["tiling"], dueDate := some "Fri" },
    { id := "t6", title := "Purchase vanity hardware", status := "ready",
      project := "bathroom", priority := "medium", labels := ["hardware"], dueDate := none },
    { id := "t7", title := "Paint cabinet doors", status := "in-progress",
      project := "kitchen", priority := "medium", labels := ["painting", "diy"],
      dueDate := some "50% complete" },
    { id := "t8", title := "Install bathroom exhaust fan", status := "in-progress",
      project := "bathroom", priority := "medium", labels := ["electrical", "contractor"],
      dueDate := some "Electrician scheduled" },
    { id := "t9", title := "Wait for electrical inspection", status := "blocked",
      project := "bathroom", priority := "high", labels := ["inspection", "blocked"],
      dueDate := some "Delayed by inspector" },
    { id := "t10", title := "Wait for custom cabinet delivery", status := "blocked",
      project := "kitchen", priority := "medium", labels := ["delivery", "supplier"],
      dueDate := some "Expected next Tuesday" },
    { id := "t11", title := "Install kitchen countertops", status := "done",
      project := "kitchen", priority := "high", labels := ["countertops", "completed"],
      dueDate := some "Completed yesterday" },
    { id := "t12", title := "Remove old bathroom fixtures", status := "done",
      project := "bathroom", priority := "high", labels := ["demolition", "completed"],
      dueDate := some "Completed last week" },
    { id := "t13", title := "Paint basement ceiling", status := "done",
      project := "basement", priority := "medium", labels := ["painting", "completed"],
      dueDate := some "Completed 2 weeks ago" } ]

/-- Seed documents of `atlas-interactive.js` (both revisions, identical data). -/
def seedDocuments : List Document :=
  [ { id := "doc-1", type := "contract", project := "kitchen",
      title := "Kitchen renovation contract", date := "2024-10-15", size := "2.4 MB" },
    { id := "doc-2", type := "photos", project := "kitchen",
      title := "Kitchen before photos", date := "2024-10-12", size := "12 photos",
      photos := some 12 },
    { id := "doc-3", type := "permit", project := "basement",
      title := "Basement building permits", date := "2024-11-01", size := "1.1 MB" },
    { id := "doc-4", type := "receipt", project := "kitchen",
      title := "Home Depot receipt", date := "2024-11-18", size := "$342.19" } ]

/-- Seed events; the dates depend on the calendar year and 0-based month
captured at construction. -/
def seedEvents (y mIdx : Nat) : List Event :=
  [ { id := "e1", title := "Electrical inspection", date := formatDateISO y mIdx 7,
      project := "bathroom", duration := 60, attendees := ["Inspector"], notes := "AM window" },
    { id := "e2", title := "Tile delivery", date := formatDateISO y mIdx 12,
      project := "kitchen", duration := 0, attendees := [], notes := "Curbside" },
    { id := "e3", title := "Contractor meeting", date := formatDateISO y mIdx 12,
      project := "basement", duration := 30, attendees := ["GC"], notes := "Scope review" },
    { id := "e4", title := "Vanity install", date := formatDateISO y mIdx 19,
      project := "bathroom", duration := 120, attendees := ["Electrician"], notes := "" } ]

/-- In-memory state of the enhanced `AtlasApp` (collections plus the two
kanban filter fields; render-only fields are omitted). -/
structure AtlasState where
  tasks : List Task
  projects : List Project
  documents : List Document
  events : List Event
  currentFilter : String := "all"
  currentPriorityFilter : String := "all"
deriving DecidableEq

/-- `localStorage` restricted to the four collection keys, holding either a
well-formed serialized array (the only thing `saveData` ever writes) or
nothing.  The unconstrained content space needed by the load-robustness
analysis is modelled separately by `RawCell`. -/
structure Storage where
  atlas_tasks : Option (List Task) := none
  atlas_projects : Option (List Project) := none
  atlas_documents : Option (List Document) := none
  atlas_events : Option (List Event) := none
deriving DecidableEq

/-- `safeJSON.get` on a well-formed cell: the parsed array if the key is
present, the fallback otherwise. -/
def safeJSONGet (cell : Option (List α)) (fallback : List α) : List α :=
  cell.getD fallback

/-- `saveData` of the enhanced revision: serialize all four collections
back to their keys (a total overwrite). -/
def saveData (st : AtlasState) : Storage :=
  { atlas_tasks := some st.tasks, atlas_projects := some st.projects,
    atlas_documents := some st.documents, atlas_events := some st.events }

/-- `loadData` of the enhanced revision (`atlas-interactive.js` lines
1145-1202): read each collection through `safeJSON.get` with fallback `[]`,
replace any empty collection by its seed, then persist via
`this.saveData(false)`.  `y`/`mIdx` are the constructor-captured calendar
year and 0-based month used by the event seeds. -/
def loadData (y mIdx : Nat) (sto : Storage) : AtlasState × Storage :=
  let tasks0 := safeJSONGet sto.atlas_tasks []
  let projects0 := safeJSONGet sto.atlas_projects []
  let documents0 := safeJSONGet sto.atlas_documents []
  let events0 := safeJSONGet sto.atlas_events []
  let projects := if projects0.isEmpty then seedProjects else projects0
  let tasks := if tasks0.isEmpty then seedTasks else tasks0
  let documents := if documents0.isEmpty then seedDocuments else documents0
  let events := if events0.isEmpty then seedEvents y mIdx else events0
  let st : AtlasState :=
    { tasks := tasks, projects := projects, documents := documents, events := events }
  (st, saveData st)

/-- `getFilteredTasks` of the enhanced revision: project and priority
filter applied to the stored task list (a pure read). -/
def getFilteredTasks (st : AtlasState) : List Task :=
  st.tasks.filter (fun task =>
    (st.currentFilter == "all" || task.project == st.currentFilter) &&
    (st.currentPriorityFilter == "all" || task.priority == st.currentPriorityFilter))

/-- `filterByProject` of the enhanced revision (lines 1495-1500), returning
the stored `currentFilter` value: lowercase, collapse whitespace to dashes,
collapse anything containing "all" to "all", then force membership in the
hard-coded project list. -/
def filterByProject (value : String) : String :=
  let c1 := dashify (jsLower (if value == "" then "all" else value))
  let c2 := if jsIncludes c1 "all" then "all" else c1
  if !(["kitchen", "basement", "bathroom", "all"].contains c2) then "all" else c2

/-- Replace the first element satisfying `p` (the object returned by
`Array.prototype.find`, mutated in place). -/
def setFirst (p : Task → Bool) (f : Task → Task) : List Task → List Task
  | [] => []
  | x :: xs => if p x then f x :: xs else x :: setFirst p f xs

/-- Replace the last element satisfying `p` (the object a JS `Map` built by
repeated `set` calls holds for a key, mutated in place). -/
def setLast (p : Task → Bool) (f : Task → Task) (l : List Task) : List Task :=
  (setFirst p f l.reverse).reverse

/-- `updateTaskStatus` of the enhanced revision (lines 1613-1623): find the
task, overwrite its `status`, persist.  No other field is touched. -/
def updateTaskStatus (st : AtlasState) (sto : Storage) (taskId newStatus : String) :
    AtlasState × Storage :=
  match st.tasks.find? (fun x => x.id == taskId) with
  | none => (st, sto)
  | some _ =>
    let tasks2 := setFirst (fun x => x.id == taskId)
      (fun t => { t with status := newStatus }) st.tasks
    let st2 := { st with tasks := tasks2 }
    (st2, saveData st2)

/-- Values of the edit-task form of the enhanced revision. -/
structure EditForm where
  title : String
  project : String
  status : String
  priority : String
  dueDate : String
  labels : String
deriving DecidableEq

/-- The `split(',').map(trim).filter(Boolean)` idiom for label inputs. -/
def parseLabels (s : String) : List String :=
  ((s.splitOn ",").map jsTrim).filter (fun x => x != "")

/-- Submit handler of `editTaskModal` (enhanced revision, lines 1787-1801):
the in-memory task object is overwritten field by field first; only then is
the empty-title check performed, and an empty title skips `saveData` (the
in-memory mutation stays). -/
def editTaskSubmit (st : AtlasState) (sto : Storage) (taskId : String) (f : EditForm) :
    AtlasState × Storage :=
  match st.tasks.find? (fun x => x.id == taskId) with
  | none => (st, sto)
  | some _ =>
    let upd : Task → Task := fun t =>
      { t with title := jsTrim f.title, project := f.project, status := f.status,
               priority := f.priority,
               dueDate := if f.dueDate == "" then none else some f.dueDate,
               labels := parseLabels f.labels }
    let st2 := { st with tasks := setFirst (fun x => x.id == taskId) upd st.tasks }
    if jsTrim f.title == "" then (st2, sto) else (st2, saveData st2)

/-- Delete-button handler of `editTaskModal` (enhanced revision, lines
1778-1785): remove the task and persist.  The handler never calls
`confirm`; the `userWouldConfirm` argument models the answer the user
would have given had a confirmation been requested — the handler ignores
it.  The guard mirrors `editTaskModal` returning early when the task id
does not resolve (so no delete button exists). -/
def btnDelTask (userWouldConfirm : Bool) (st : AtlasState) (sto : Storage) (taskId : String) :
    AtlasState × Storage :=
  match st.tasks.find? (fun x => x.id == taskId) with
  | none => (st, sto)
  | some t =>
    let st2 := { st with tasks := st.tasks.filter (fun x => x.id != t.id) }
    (st2, saveData st2)

/-- `deleteTask` of the `part_000` revision (lines 558-566): ask for
confirmation first; on decline return without touching anything, on accept
filter the task out and persist.  The boolean result records whether
`saveData` ran. -/
def deleteTaskP0 (userConfirms : Bool) (tasks : List Task) (taskId : String) :
    List Task × Bool :=
  if !userConfirms then (tasks, false)
  else (tasks.filter (fun t => t.id != taskId), true)

/-- Values of the add-task form of the `part_000` revision.  The
`Date(...).toISOString()` conversion of a non-empty due date is abstracted
to the entered string (its exact text is irrelevant to every claim). -/
structure AddFormP0 where
  title : String
  description : String
  status : String
  project : String
  priority : String
  due : String
  estimate : Nat
  tags : String
deriving DecidableEq

/-- Submit handler of `showAddTaskModal` (`part_000` lines 441-474): build
the new task (title trimmed), reject it before any state change when the
trimmed title is empty, otherwise push it and persist. -/
def addTaskSubmitP0 (tasks : List Task) (newId : String) (f : AddFormP0) (now : String) :
    List Task × Bool :=
  let newTask : Task :=
    { id := newId, title := jsTrim f.title, status := f.status, project := f.project,
      priority := f.priority,
      dueDate := if f.due == "" then none else some f.due,
      description := some (jsTrim f.description),
      estimate := some f.estimate, tags := parseLabels f.tags,
      dependencies := [], photos := [], createdAt := some now, updatedAt := some now }
  if newTask.title == "" then (tasks, false)
  else (tasks ++ [newTask], true)

/-- `indexTasks` of the `part_000` revision (lines 137-145): one pass over
the tasks filling `taskById` (key `String(t.id)`) and `taskByTitle`
(key `String(t.title).toLowerCase().trim()`); `Map.set` makes the last
task win for a repeated key. -/
def indexTasks (ts : List Task) : List (String × Task) × List (String × Task) :=
  ts.foldl (fun acc t => (jsMapSet acc.1 t.id t, jsMapSet acc.2 (jsNorm t.title) t))
    ([], [])

/-- `reindexTasks` of the enhanced revision (lines 1212-1218): map each
raw (unnormalized) title to the ids of the tasks bearing it, in insertion
order. -/
def reindexTasks (ts : List Task) : List (String × List String) :=
  ts.foldl (fun m t => mapPush m t.title t.id) []

/-- Outcome of `openTaskByIdOrName`: early return on a falsy query, the
task-detail modal, or the quick-info placeholder. -/
inductive OpenResult where
  | nothing
  | detail (t : Task)
  | placeholder (name : String)
deriving DecidableEq

/-- `openTaskByIdOrName` of the `part_000` revision (lines 250-271): empty
query returns immediately; then id map, then normalized-title map, then
case-insensitive substring containment in either direction, then the
quick-info placeholder (`showQuickTaskInfo`, never an error). -/
def openTaskByIdOrName (ts : List Task) (q : String) : OpenResult :=
  if q == "" then .nothing
  else
    match jsMapGet (indexTasks ts).1 q with
    | some t => .detail t
    | none =>
      match jsMapGet (indexTasks ts).2 (jsNorm q) with
      | some t => .detail t
      | none =>
        match ts.find? (fun t =>
            jsIncludes (jsLower t.title) (jsNorm q) ||
            jsIncludes (jsNorm q) (jsLower t.title)) with
        | some t => .detail t
        | none => .placeholder q

/-- Drop handler of `setupKanbanDnD` (`part_000` lines 656-674): when the
drop landed on a column carrying a status and the dragged id resolves in
`taskById`, set the task status to the column status, stamp `updatedAt`
with the current time and persist; otherwise only clean up.  The object in
`taskById` is the last task with that id, hence `setLast`. -/
def dropCommitP0 (ts : List Task) (dropColStatus : Option String) (taskId now : String) :
    List Task × Bool :=
  match dropColStatus, jsMapGet (indexTasks ts).1 taskId with
  | some c, some _ =>
    (setLast (fun x => x.id == taskId)
      (fun t => { t with status := c, updatedAt := some now }) ts, true)
  | _, _ => (ts, false)

/-- `SEED_TASKS` of the `part_000` revision (lines 52-98).  The script
computes the three due dates and the creation stamp from the clock when
it is loaded; they are passed in here as `due1`/`due2`/`due3`/`now`. -/
def seedTasksP0 (due1 due2 due3 now : String) : List Task :=
  [ { id := "t9", title := "Schedule plumbing inspection",
      description := some "Coordinate with the city inspector for the rough-in plumbing. Gather photos and permit paperwork.",
      status := "blocked", project := "bathroom", priority := "high",
      dueDate := some due1, estimate := some 2, tags := ["Inspection", "Plumbing"],
      dependencies := ["t3"], photos := [], createdAt := some now, updatedAt := some now },
    { id := "t11", title := "Order bathroom vanity",
      description := some "Confirm dimensions and order from preferred retailer. Targets: 36\" width, matte black hardware.",
      status := "planning", project := "bathroom", priority := "medium",
      dueDate := some due2, estimate := some 1, tags := ["Purchasing"],
      dependencies := [], photos := [], createdAt := some now, updatedAt := some now },
    { id := "t8", title := "Research countertop materials",
      description := some "Compare quartz vs. butcher block. Track cost per sq ft, lead times, and maintenance.",
      status := "planning", project := "kitchen", priority := "low",
      dueDate := some due3, estimate := some 3, tags := ["Research", "Materials"],
      dependencies := [], photos := [], createdAt := some now, updatedAt := some now } ]

/-- `SEED_PROJECTS` of the `part_000` revision (lines 100-104). -/
def seedProjectsP0 : List Project :=
  [ { id := "kitchen", name := "Kitchen Renovation Epic", status := "in-progress",
      progress := 65, spent := 23400, budget := 28000 },
    { id := "basement", name := "Basement Finishing Epic", status := "planning",
      progress := 15, spent := 5200, budget := 35000 },
    { id := "bathroom", name := "Bathroom Update Epic", status := "blocked",
      progress := 40, spent := 8100, budget := 12000 } ]

/-- `loadData` of the `part_000` revision (lines 118-129): parse the two
keys, keep a stored array as-is (`Array.isArray`, even when empty), fall
back to the fixed seed constants on anything else (an absent key parses to
a non-array, and the surrounding `try` turns malformed data into the same
seeded result).  The function only indexes afterwards — it contains no
`setItem`/`saveData` call, so the storage is returned untouched: the seed
is never persisted and every load of empty storage re-derives it. -/
def loadDataP0 (due1 due2 due3 now : String) (sto : Storage) :
    (List Task × List Project) × Storage :=
  (((match sto.atlas_tasks with
     | some xs => xs
     | none => seedTasksP0 due1 due2 due3 now),
    (match sto.atlas_projects with
     | some ps => ps
     | none => seedProjectsP0)),
   sto)

/-- Raw content of one `localStorage` key, classified the way the two
`loadData` implementations can distinguish it: key absent (`getItem`
returns `null`), present but unparsable JSON, the JSON literal `null`
(parses successfully to a value without properties), a parsed array, or a
parsed non-array non-null value — object, string, number or boolean —
whose `length` property reads truthy or falsy without throwing. -/
inductive RawCell (α : Type) where
  | absent
  | malformed
  | jsonNull
  | arr (xs : List α)
  | nonArr (truthyLen : Bool)
deriving DecidableEq

/-- A successfully parsed JS value held by a collection field.  `jsNull`
is the parsed JSON `null`: any `.length` access on it throws a TypeError,
so it can never survive the seed check into a returned state. -/
inductive JsVal (α : Type) where
  | jsNull
  | arr (xs : List α)
  | nonArr (truthyLen : Bool)
deriving DecidableEq

/-- The seed test `if (!v.length) v = seed` applied to a parsed value: an
empty array and a falsy-length non-array are replaced by the seed, a
non-empty array and a truthy-length non-array are kept, and on `null` the
`length` property access itself throws a TypeError to the caller. -/
def lengthCheck (v : JsVal α) (seed : List α) : Except Unit (JsVal α) :=
  match v with
  | .jsNull => .error ()
  | .arr xs => .ok (if xs.isEmpty then .arr seed else .arr xs)
  | .nonArr b => .ok (if b then .nonArr b else .arr seed)

/-- The parse result a cell yields when parsing succeeds. -/
def parsedOf : RawCell α → Option (JsVal α)
  | .jsonNull => some .jsNull
  | .arr xs => some (.arr xs)
  | .nonArr b => some (.nonArr b)
  | _ => none

/-- The first script revision reads a cell as
`const x = getItem(k); if (x) this.f = JSON.parse(x)`: an absent key is
skipped (the field keeps its `[]` initializer), malformed JSON throws,
and the string "null" parses to the JSON `null` value. -/
def parseCellV1 : RawCell α → Except Unit (Option (JsVal α))
  | .absent => .ok none
  | .malformed => .error ()
  | .jsonNull => .ok (some .jsNull)
  | .arr xs => .ok (some (.arr xs))
  | .nonArr b => .ok (some (.nonArr b))

/-- The seeding step of the first revision applied to the value a cell
produced (`none` = the `[]` initializer was kept): the `length` check
throws on a parsed `null`. -/
def seedFixV1 (v : Option (JsVal α)) (seed : List α) : Except Unit (JsVal α) :=
  match v with
  | none => .ok (.arr seed)
  | some w => lengthCheck w seed

/-- `safeJSON.get(k, [])` of the enhanced revision: fallback `[]` on an
absent key or a parse exception, the parsed value otherwise — a stored
"null" parses successfully inside the `try`, so it is returned as-is. -/
def safeJSONGetRaw : RawCell α → JsVal α
  | .absent => .arr []
  | .malformed => .arr []
  | .jsonNull => .jsNull
  | .arr xs => .arr xs
  | .nonArr b => .nonArr b

/-- One collection of the enhanced `loadData`: `safeJSON.get` followed by
the seed check, whose `length` access throws on a parsed `null`. -/
def loadCellV2 (c : RawCell α) (seed : List α) : Except Unit (JsVal α) :=
  lengthCheck (safeJSONGetRaw c) seed

/-- Unconstrained persistent storage, one raw cell per collection key. -/
structure RawStorage where
  tasks : RawCell Task
  projects : RawCell Project
  documents : RawCell Document
  events : RawCell Event
deriving DecidableEq

/-- The collections right after a load, before any shape assumption. -/
structure RawState where
  tasks : JsVal Task
  projects : JsVal Project
  documents : JsVal Document
  events : JsVal Event
deriving DecidableEq

/-- `loadData` of the first script revision (`atlas-interactive.js` lines
67-137) over raw storage: parse the four cells in order — a parse
exception propagates to the caller — then run the seed checks in source
order (projects, tasks, documents, events), where a parsed `null` makes
the `length` access throw.  (The final `this.saveData()` does not affect
the returned collections.) -/
def loadDataV1 (y mIdx : Nat) (s : RawStorage) : Except Unit RawState := do
  let tv ← parseCellV1 s.tasks
  let pv ← parseCellV1 s.projects
  let dv ← parseCellV1 s.documents
  let ev ← parseCellV1 s.events
  let p ← seedFixV1 pv seedProjects
  let t ← seedFixV1 tv seedTasks
  let d ← seedFixV1 dv seedDocuments
  let e ← seedFixV1 ev (seedEvents y mIdx)
  return { tasks := t, projects := p, documents := d, events := e }

/-- `loadData` of the enhanced revision over raw storage: every cell goes
through `safeJSON.get`, which never raises — but the subsequent
`if (!v.length)` seed checks (source order: projects, tasks, documents,
events) still throw when a stored value parsed to JSON `null`. -/
def loadDataV2 (y mIdx : Nat) (s : RawStorage) : Except Unit RawState := do
  let p ← loadCellV2 s.projects seedProjects
  let t ← loadCellV2 s.tasks seedTasks
  let d ← loadCellV2 s.documents seedDocuments
  let e ← loadCellV2 s.events (seedEvents y mIdx)
  return { tasks := t, projects := p, documents := d, events := e }

/-! Concrete fixtures used by counterexamples and witnesses. -/

/-- First of two tasks sharing the title "Paint wall" (resolver fixtures). -/
def cexTaskA : Task :=
  { id := "a", title := "Paint wall", status := "planning", project := "kitchen",
    priority := "low" }

/-- Second task with the duplicated title "Paint wall". -/
def cexTaskB : Task :=
  { id := "b", title := "Paint wall", status := "ready", project := "bathroom",
    priority := "high" }

/-- Resolver witness task with an unambiguous id and title. -/
def w1Task : Task :=
  { id := "w1", title := "Hang drywall", status := "planning", project := "basement",
    priority := "medium" }

/-- Task whose `updatedAt` is a known old timestamp (drop fixtures). -/
def c2Task : Task :=
  { id := "t9", title := "Wait for electrical inspection", status := "blocked",
    project := "bathroom", priority := "high",
    updatedAt := some "2025-01-01T00:00:00.000Z" }

/-- State holding only `c2Task`. -/
def c2State : AtlasState :=
  { tasks := [c2Task], projects := seedProjects, documents := [], events := [] }

/-- Storage as persisted from `c2State`. -/
def c2Storage : Storage := saveData c2State

/-- A state whose task collection is empty (round-trip fixtures). -/
def c3EmptyState : AtlasState :=
  { tasks := [], projects := seedProjects, documents := seedDocuments,
    events := seedEvents 2025 9 }

/-- A state with one entity in every collection (round-trip witness). -/
def c3SmallState : AtlasState :=
  { tasks := [w1Task],
    projects := [{ id := "deck", name := "Deck Construction", status := "planning",
                   progress := 0, budget := 25000, spent := 0 }],
    documents := [{ id := "doc-9", type := "permit", project := "deck",
                    title := "Deck permit", date := "2025-05-01", size := "0.3 MB" }],
    events := [{ id := "e9", title := "Lumber delivery", date := "2025-05-02",
                 project := "deck", duration := 0 }] }

/-- The task `c2Task` as the drop handler leaves it. -/
def c2Updated : Task :=
  { c2Task with status := "done", updatedAt := some "2025-10-11T12:00:00.000Z" }

/-- Task whose raw title carries case and surrounding whitespace. -/
def c4Task : Task :=
  { id := "a4", title := " Foo ", status := "planning", project := "kitchen",
    priority := "low" }

/-- Indexer witness task. -/
def c4wTask : Task :=
  { id := "x1", title := "Seal grout lines", status := "ready", project := "bathroom",
    priority := "low" }

/-- Task subject to the empty-title edit (form-validation fixtures). -/
def c8Task : Task :=
  { id := "a8", title := "A", status := "planning", project := "kitchen",
    priority := "low" }

/-- State holding only `c8Task`. -/
def c8State : AtlasState :=
  { tasks := [c8Task], projects := seedProjects, documents := [], events := [] }

/-- Storage as persisted from `c8State`. -/
def c8Storage : Storage := saveData c8State

/-- Edit form whose title is whitespace only. -/
def c8Form : EditForm :=
  { title := " ", project := "kitchen", status := "done", priority := "high",
    dueDate := "", labels := "" }

/-- Add-task form of the `part_000` revision whose title is whitespace only. -/
def c8AddForm : AddFormP0 :=
  { title := " ", description := "", status := "planning", project := "kitchen",
    priority := "medium", due := "", estimate := 0, tags := "" }

/-- Task targeted by the unconfirmed delete (delete fixtures). -/
def c9Task : Task :=
  { id := "a9", title := "Demo old deck", status := "ready", project := "kitchen",
    priority := "medium" }

/-- State holding only `c9Task`. -/
def c9State : AtlasState :=
  { tasks := [c9Task], projects := [], documents := [], events := [] }

/-- Storage as persisted from `c9State`. -/
def c9Storage : Storage := saveData c9State

/-- Raw storage whose task cell is unparsable JSON and whose other cells
are absent. -/
def c5BadStorage : RawStorage :=
  { tasks := .malformed, projects := .absent, documents := .absent, events := .absent }

/-- Raw storage whose task cell holds the JSON literal `null` (stored
string "null") and whose other cells are absent. -/
def c5NullStorage : RawStorage :=
  { tasks := .jsonNull, projects := .absent, documents := .absent, events := .absent }

/-- Result of the `part_000` revision's `loadData` on empty storage, with
concrete values for the clock-derived seed dates. -/
def c6P0First : (List Task × List Project) × Storage :=
  loadDataP0 "2025-10-13T12:00:00.000Z" "2025-10-15T12:00:00.000Z"
    "2025-10-18T12:00:00.000Z" "2025-10-12T12:00:00.000Z" {}

/-! Lemmas about the JS `Map` model. -/

theorem jsMapGet_nil (k : String) : jsMapGet ([] : List (String × α)) k = none := rfl

theorem jsMapGet_cons (p : String × α) (m : List (String × α)) (k : String) :
    jsMapGet (p :: m) k = if p.1 = k then some p.2 else jsMapGet m k := by
  by_cases h : p.1 = k
  · simp [jsMapGet, List.find?_cons, h]
  · simp [jsMapGet, List.find?_cons, h]

theorem jsMapGet_mapValue (m : List (String × α)) (k k2 : String) (g : α → α) :
    jsMapGet (m.map (fun p => if p.1 == k then (p.1, g p.2) else p)) k2 =
      if k2 = k then (jsMapGet m k).map g else jsMapGet m k2 := by
  induction m with
  | nil => by_cases h : k2 = k <;> simp [jsMapGet, h]
  | cons p m ih =>
    rw [List.map_cons, jsMapGet_cons, jsMapGet_cons, jsMapGet_cons, ih]
    by_cases hB : p.1 = k
    · by_cases hk : k2 = k
      · simp [hB, hk, hB.trans hk.symm]
      · have hA : p.1 ≠ k2 := fun h => hk (h ▸ hB.symm ▸ rfl)
        simp [hB, hk, hA, Ne.symm hk]
    · by_cases hA : p.1 = k2
      · have hk : k2 ≠ k := fun h => hB (hA.trans h)
        simp [hB, hk, hA]
      · by_cases hk : k2 = k <;> simp [hB, hA, hk]

theorem jsMapGet_isSome_of_any (m : List (String × α)) (k : String)
    (h : m.any (fun p => p.1 == k) = true) : ∃ w, jsMapGet m k = some w := by
  obtain ⟨p, hp, hpk⟩ := List.any_eq_true.1 h
  rcases hfind : m.find? (fun p => p.1 == k) with _ | q
  · exact absurd (List.find?_eq_none.1 hfind p hp) (by simp [hpk])
  · exact ⟨q.2, by simp [jsMapGet, hfind]⟩

theorem jsMapGet_none_of_not_any (m : List (String × α)) (k : String)
    (h : m.any (fun p => p.1 == k) = false) : jsMapGet m k = none := by
  have hfind : m.find? (fun p => p.1 == k) = none := by
    refine List.find?_eq_none.2 fun p hp hbad => ?_
    have : m.any (fun p => p.1 == k) = true := List.any_eq_true.2 ⟨p, hp, hbad⟩
    rw [h] at this
    exact Bool.false_ne_true this
  simp [jsMapGet, hfind]

theorem jsMapGet_set (m : List (String × α)) (k k2 : String) (v : α) :
    jsMapGet (jsMapSet m k v) k2 = if k2 = k then some v else jsMapGet m k2 := by
  unfold jsMapSet
  by_cases hany : m.any (fun p => p.1 == k) = true
  · rw [if_pos hany]
    have hmv := jsMapGet_mapValue m k k2 (fun _ => v)
    by_cases hk : k2 = k
    · obtain ⟨w, hw⟩ := jsMapGet_isSome_of_any m k hany
      rw [hmv, if_pos hk, hw]
      simp [hk]
    · rw [hmv, if_neg hk, if_neg hk]
  · rw [if_neg hany]
    have hany2 : m.any (fun p => p.1 == k) = false := Bool.eq_false_iff.2 hany
    by_cases hk : k2 = k
    · subst hk
      have hnone := jsMapGet_none_of_not_any m k2 hany2
      simp only [jsMapGet] at hnone ⊢
      rcases hfind : m.find? (fun p => p.1 == k2) with _ | q
      · simp [List.find?_append, hfind, List.find?_cons]
      · simp [hfind] at hnone
    · simp only [jsMapGet, List.find?_append]
      have : List.find? (fun p => p.1 == k2) [(k, v)] = none := by
        simp [List.find?_cons, Ne.symm hk]
      simp [this, if_neg hk]

theorem jsMapGet_foldl_set (key : Task → String) (ts : List Task)
    (m0 : List (String × Task)) (k : String) :
    jsMapGet (ts.foldl (fun m t => jsMapSet m (key t) t) m0) k =
      (ts.reverse.find? (fun t => key t == k)).or (jsMapGet m0 k) := by
  induction ts generalizing m0 with
  | nil => simp
  | cons t ts ih =>
    rw [List.foldl_cons, ih, List.reverse_cons, List.find?_append, Option.or_assoc]
    congr 1
    rw [jsMapGet_set]
    by_cases h : key t = k
    · simp [List.find?_cons, h]
    · have h2 : (key t == k) = false := by simp [h]
      simp [List.find?_cons, h2, Ne.symm h]

theorem foldl_prod {σ τ γ : Type} (f : σ → γ → σ) (g : τ → γ → τ) (ts : List γ)
    (a : σ) (b : τ) :
    ts.foldl (fun acc t => (f acc.1 t, g acc.2 t)) (a, b) = (ts.foldl f a, ts.foldl g b) := by
  induction ts generalizing a b with
  | nil => rfl
  | cons t ts ih => simp [List.foldl_cons, ih]

theorem indexTasks_fst (ts : List Task) (k : String) :
    jsMapGet (indexTasks ts).1 k = ts.reverse.find? (fun t => t.id == k) := by
  have h := foldl_prod (fun m (t : Task) => jsMapSet m t.id t)
    (fun m (t : Task) => jsMapSet m (jsNorm t.title) t) ts [] []
  unfold indexTasks
  rw [h, jsMapGet_foldl_set Task.id ts [] k, jsMapGet_nil, Option.or_none]

theorem indexTasks_snd (ts : List Task) (k : String) :
    jsMapGet (indexTasks ts).2 k = ts.reverse.find? (fun t => jsNorm t.title == k) := by
  have h := foldl_prod (fun m (t : Task) => jsMapSet m t.id t)
    (fun m (t : Task) => jsMapSet m (jsNorm t.title) t) ts [] []
  unfold indexTasks
  rw [h, jsMapGet_foldl_set (fun t => jsNorm t.title) ts [] k, jsMapGet_nil, Option.or_none]

theorem jsMapGet_push (m : List (String × List String)) (k k2 v : String) :
    jsMapGet (mapPush m k v) k2 =
      if k2 = k then some ((jsMapGet m k).getD [] ++ [v]) else jsMapGet m k2 := by
  unfold mapPush
  by_cases hany : m.any (fun p => p.1 == k) = true
  · rw [if_pos hany]
    have hmv := jsMapGet_mapValue m k k2 (fun l => l ++ [v])
    by_cases hk : k2 = k
    · obtain ⟨w, hw⟩ := jsMapGet_isSome_of_any m k hany
      rw [hmv, if_pos hk, hw]
      simp [hk]
    · rw [hmv, if_neg hk, if_neg hk]
  · rw [if_neg hany]
    have hany2 : m.any (fun p => p.1 == k) = false := Bool.eq_false_iff.2 hany
    have hnone := jsMapGet_none_of_not_any m k hany2
    by_cases hk : k2 = k
    · subst hk
      simp only [jsMapGet, List.find?_append] at hnone ⊢
      rcases hfind : m.find? (fun p => p.1 == k2) with _ | q
      · simp [hfind, List.find?_cons, jsMapGet, hnone]
      · simp [jsMapGet, hfind] at hnone
    · simp only [jsMapGet, List.find?_append]
      have : List.find? (fun p => p.1 == k2) [(k, [v])] = none := by
        simp [List.find?_cons, Ne.symm hk]
      simp [this, if_neg hk]

theorem jsMapGet_foldl_push (key val : Task → String) (ts : List Task)
    (m0 : List (String × List String)) (k : String) :
    jsMapGet (ts.foldl (fun m t => mapPush m (key t) (val t)) m0) k =
      match jsMapGet m0 k with
      | some l => some (l ++ (ts.filter (fun t => key t == k)).map val)
      | none =>
        if (ts.filter (fun t => key t == k)).isEmpty then none
        else some ((ts.filter (fun t => key t == k)).map val) := by
  induction ts generalizing m0 with
  | nil => cases h : jsMapGet m0 k <;> simp [h]
  | cons t ts ih =>
    rw [List.foldl_cons, ih, jsMapGet_push]
    by_cases hk : key t = k
    · rw [if_pos hk.symm]
      have hkb : (key t == k) = true := by simp [hk]
      rcases h0 : jsMapGet m0 k with _ | l

      · simp [List.filter_cons, hkb, hk, h0]
      · simp [List.filter_cons, hkb, hk, h0, List.append_assoc]
    · rw [if_neg (Ne.symm hk)]
      have hkb : (key t == k) = false := by simp [hk]
      simp [List.filter_cons, hkb]

theorem reindex_lookup (ts : List Task) (k : String) :
    jsMapGet (reindexTasks ts) k =
      if (ts.filter (fun t => t.title == k)).isEmpty then none
      else some ((ts.filter (fun t => t.title == k)).map Task.id) := by
  unfold reindexTasks
  rw [jsMapGet_foldl_push Task.title Task.id ts [] k, jsMapGet_nil]

/-! Lemmas about in-place updates of a single array element. -/

theorem setFirst_length (p : Task → Bool) (f : Task → Task) (l : List Task) :
    (setFirst p f l).length = l.length := by
  induction l with
  | nil => rfl
  | cons x xs ih =>
    by_cases h : p x <;> simp [setFirst, h, ih]

theorem setFirst_map_of_fix (p : Task → Bool) (f : Task → Task) {β : Type} (g : Task → β)
    (hg : ∀ x, g (f x) = g x) (l : List Task) :
    (setFirst p f l).map g = l.map g := by
  induction l with
  | nil => rfl
  | cons x xs ih =>
    by_cases h : p x <;> simp [setFirst, h, ih, hg]

theorem setFirst_mem (p : Task → Bool) (f : Task → Task) (l : List Task) (t : Task)
    (ht : t ∈ setFirst p f l) : t ∈ l ∨ ∃ x, x ∈ l ∧ t = f x := by
  induction l with
  | nil => simp [setFirst] at ht
  | cons x xs ih =>
    by_cases h : p x
    · simp only [setFirst, h, if_pos] at ht
      rcases List.mem_cons.1 ht with h1 | h1
      · exact Or.inr ⟨x, List.mem_cons_self x xs, h1⟩
      · exact Or.inl (List.mem_cons_of_mem x h1)
    · simp only [setFirst, h, if_neg, Bool.false_eq_true, not_false_eq_true] at ht
      rcases List.mem_cons.1 ht with h1 | h1
      · exact Or.inl (h1 ▸ List.mem_cons_self x xs)
      · rcases ih h1 with h2 | ⟨y, hy, hty⟩
        · exact Or.inl (List.mem_cons_of_mem x h2)
        · exact Or.inr ⟨y, List.mem_cons_of_mem x hy, hty⟩

theorem map_id_of_countP_zero (p : Task → Bool) (f : Task → Task) (l : List Task)
    (h : l.countP p = 0) :
    l.map (fun x => if p x then f x else x) = l := by
  have hall := List.countP_eq_zero.1 h
  calc l.map (fun x => if p x then f x else x)
      = l.map id := List.map_congr_left fun a ha => by
        simp [Bool.eq_false_iff.2 (hall a ha)]
    _ = l := List.map_id l

theorem setFirst_eq_map (p : Task → Bool) (f : Task → Task) (l : List Task)
    (h : l.countP p ≤ 1) :
    setFirst p f l = l.map (fun x => if p x then f x else x) := by
  induction l with
  | nil => rfl
  | cons x xs ih =>
    rw [List.countP_cons] at h
    by_cases hx : p x
    · have h0 : xs.countP p = 0 := by
        rw [if_pos hx] at h
        omega
      simp [setFirst, hx, map_id_of_countP_zero p f xs h0]
    · rw [if_neg hx] at h
      simp only [Nat.add_zero] at h
      simp [setFirst, hx, ih h]

theorem setLast_eq_map (p : Task → Bool) (f : Task → Task) (l : List Task)
    (h : l.countP p ≤ 1) :
    setLast p f l = l.map (fun x => if p x then f x else x) := by
  unfold setLast
  rw [setFirst_eq_map p f l.reverse (by rw [List.countP_reverse]; exact h)]
  rw [← List.map_reverse, List.reverse_reverse]

theorem countP_id_le_one (ts : List Task) (q : String)
    (h : (ts.map Task.id).Nodup) :
    ts.countP (fun x => x.id == q) ≤ 1 := by
  have h1 : ts.countP (fun x => x.id == q) = (ts.map Task.id).countP (fun s => s == q) := by
    rw [List.countP_map]
    rfl
  rw [h1, ← List.count_eq_countP]
  exact List.nodup_iff_count_le_one.1 h q

/-! Claim theorems. -/

/-- C6 counterexample: the `part_000` revision's `loadData` on empty
storage creates its seed set of 3 tasks in memory but never persists it —
the storage still holds nothing under either key after the load — so the
seed is not "immediately persisted", and a second load re-derives it from
the constants instead of reading it back. -/
theorem seed_once_counterexample :
    c6P0First.1.1.length = 3 ∧
    c6P0First.1.2.length = 3 ∧
    c6P0First.2 = ({} : Storage) ∧
    c6P0First.2.atlas_tasks = none ∧
    c6P0First.2.atlas_projects = none := by
  exact ⟨rfl, rfl, rfl, rfl, rfl⟩

/-- C6 (amended): the enhanced revision's `loadData` on empty storage
creates the fixed seed set of 13 tasks and 3 projects, persists it
immediately, and a second load straight afterwards returns exactly the
same tasks and projects with no re-seeding and no duplication; the
`part_000` revision's `loadData` instead seeds its 3 tasks and 3 projects
only in memory — nothing is persisted, the storage stays empty, and every
subsequent load of that storage re-derives the same seed from the
constants rather than reading it back. -/
theorem seed_once_amended (y mIdx : Nat) (due1 due2 due3 now : String) :
    (loadData y mIdx {}).1.tasks = seedTasks ∧
    (loadData y mIdx {}).1.projects = seedProjects ∧
    seedTasks.length = 13 ∧
    seedProjects.length = 3 ∧
    (loadData y mIdx {}).2.atlas_tasks = some seedTasks ∧
    (loadData y mIdx {}).2.atlas_projects = some seedProjects ∧
    (loadData y mIdx (loadData y mIdx {}).2).1.tasks = (loadData y mIdx {}).1.tasks ∧
    (loadData y mIdx (loadData y mIdx {}).2).1.projects = (loadData y mIdx {}).1.projects ∧
    (loadDataP0 due1 due2 due3 now {}).1.1 = seedTasksP0 due1 due2 due3 now ∧
    (loadDataP0 due1 due2 due3 now {}).1.2 = seedProjectsP0 ∧
    (seedTasksP0 due1 due2 due3 now).length = 3 ∧
    seedProjectsP0.length = 3 ∧
    (loadDataP0 due1 due2 due3 now {}).2 = ({} : Storage) ∧
    (loadDataP0 due1 due2 due3 now ((loadDataP0 due1 due2 due3 now {}).2)).1.1
      = (loadDataP0 due1 due2 due3 now {}).1.1 :=
  ⟨rfl, rfl, rfl, rfl, rfl, rfl, rfl, rfl, rfl, rfl, rfl, rfl, rfl, rfl⟩

/-- C7: for every project filter `P` and priority filter `Q`, the task set
the board renders and counts (`getFilteredTasks`) is exactly the stored
tasks `t` with (`P` = "all" or `t.project` = `P`) and (`Q` = "all" or
`t.priority` = `Q`); computing it never mutates the stored collection
(in this pure embedding: the result is a sublist of the store). -/
theorem filtered_tasks_confirmed (st : AtlasState) (t : Task) :
    (t ∈ getFilteredTasks st ↔
      t ∈ st.tasks ∧
        (st.currentFilter = "all" ∨ t.project = st.currentFilter) ∧
        (st.currentPriorityFilter = "all" ∨ t.priority = st.currentPriorityFilter)) ∧
    List.Sublist (getFilteredTasks st) st.tasks := by
  constructor
  · simp [getFilteredTasks, List.mem_filter, and_assoc]
  · exact List.filter_sublist st.tasks

/-- C10: for every input `v` to `filterByProject`, the stored project
filter is exactly the normalized input when that is one of "kitchen",
"basement" or "bathroom", and "all" otherwise; in particular it always
lies in the four-element set, and the id of a runtime-created project
(shape "project-" + timestamp) is silently coerced to "all". -/
theorem project_filter_confirmed :
    (∀ v : String,
        filterByProject v =
          if dashify (jsLower (if v == "" then "all" else v)) ∈
              (["kitchen", "basement", "bathroom"] : List String) then
            dashify (jsLower (if v == "" then "all" else v))
          else "all") ∧
    (∀ v : String,
        filterByProject v ∈ (["kitchen", "basement", "bathroom", "all"] : List String)) ∧
    filterByProject "project-1760140800000" = "all" ∧
    ("project-1760140800000" : String) ∉
      (["kitchen", "basement", "bathroom", "all"] : List String) := by
  have main : ∀ v : String,
      filterByProject v =
        if dashify (jsLower (if v == "" then "all" else v)) ∈
            (["kitchen", "basement", "bathroom"] : List String) then
          dashify (jsLower (if v == "" then "all" else v))
        else "all" := by
    intro v
    unfold filterByProject
    generalize dashify (jsLower (if v == "" then "all" else v)) = c
    by_cases h3 : c ∈ (["kitchen", "basement", "bathroom"] : List String)
    · rw [if_pos h3]
      fin_cases h3 <;> decide
    · rw [if_neg h3]
      by_cases hinc : jsIncludes c "all" = true
      · simp only [hinc, if_pos]
        decide
      · simp only [Bool.eq_false_iff.2 hinc, if_neg, Bool.false_eq_true, not_false_eq_true]
        by_cases h4 : c ∈ (["kitchen", "basement", "bathroom", "all"] : List String)
        · have hc : c = "all" := by
            simp only [List.mem_cons, List.not_mem_nil, or_false] at h3 h4
            tauto
          subst hc
          decide
        · have h4b : (["kitchen", "basement", "bathroom", "all"] : List String).contains c
              = false := by
            rw [Bool.eq_false_iff]
            intro hcon
            exact h4 (List.elem_iff.1 hcon)
          rw [h4b]
          simp
  refine ⟨main, ?_, ?_, by decide⟩
  · intro v
    rw [main v]
    by_cases h3 : dashify (jsLower (if v == "" then "all" else v)) ∈
        (["kitchen", "basement", "bathroom"] : List String)
    · rw [if_pos h3]
      simp only [List.mem_cons, List.not_mem_nil, or_false] at h3 ⊢
      tauto
    · rw [if_neg h3]
      decide
  · rw [main "project-1760140800000"]
    decide

/-- C3 counterexample: saving a state whose task collection is empty and
reloading does not return the empty collection — `loadData` re-seeds it,
so the round trip is not deep-equal for empty collections. -/
theorem roundtrip_counterexample :
    c3EmptyState.tasks = [] ∧
    (loadData 2025 9 (saveData c3EmptyState)).1.tasks = seedTasks ∧
    seedTasks ≠ [] := by
  refine ⟨rfl, rfl, by decide⟩

/-- C3 (amended): for every state in which all four collections are
non-empty, `saveData` followed by `loadData` yields task, project,
document and event collections deep-equal to the ones before the save;
a state with an empty collection instead gets that collection replaced by
the seed set on reload. -/
theorem roundtrip_amended (y mIdx : Nat) (st : AtlasState)
    (h1 : st.tasks ≠ []) (h2 : st.projects ≠ [])
    (h3 : st.documents ≠ []) (h4 : st.events ≠ []) :
    (loadData y mIdx (saveData st)).1.tasks = st.tasks ∧
    (loadData y mIdx (saveData st)).1.projects = st.projects ∧
    (loadData y mIdx (saveData st)).1.documents = st.documents ∧
    (loadData y mIdx (saveData st)).1.events = st.events := by
  unfold loadData saveData safeJSONGet
  simp [List.isEmpty_iff, h1, h2, h3, h4]

/-- C3 witness: the amended round trip applied to a concrete state with
one entity per collection. -/
theorem roundtrip_witness :
    (c3SmallState.tasks ≠ [] ∧ c3SmallState.projects ≠ [] ∧
     c3SmallState.documents ≠ [] ∧ c3SmallState.events ≠ []) ∧
    (loadData 2025 9 (saveData c3SmallState)).1.tasks = c3SmallState.tasks :=
  ⟨⟨by decide, by decide, by decide, by decide⟩,
    (roundtrip_amended 2025 9 c3SmallState (by decide) (by decide)
      (by decide) (by decide)).1⟩

/-- C5 counterexample: the first script revision's `loadData` parses the
stored strings outside any `try`, so storage holding unparsable JSON under
the tasks key makes the load throw instead of returning normally; and even
the enhanced revision's `loadData` throws when the stored tasks value is
the JSON literal `null` — `safeJSON.get` returns the parsed `null` and the
subsequent `!this.tasks.length` check dereferences it. -/
theorem load_robustness_counterexample :
    loadDataV1 2025 9 c5BadStorage = Except.error () ∧
    loadDataV2 2025 9 c5NullStorage = Except.error () :=
  ⟨rfl, rfl⟩

/-- C5 (amended): the first script revision's `loadData` propagates the
JSON parse exception on malformed data; the enhanced revision's `loadData`
(through `safeJSON`) recovers missing keys and malformed JSON to the seed,
and for every storage content none of whose values parses to JSON `null`
it returns normally with each collection equal either to the successfully
parsed value or to the fixed seed set — but when a stored value does parse
to `null`, the `!v.length` seed check throws a TypeError to the caller in
the enhanced revision as well. -/
theorem load_robustness_amended :
    (∀ (y mIdx : Nat) (s : RawStorage),
        s.tasks ≠ RawCell.jsonNull → s.projects ≠ RawCell.jsonNull →
        s.documents ≠ RawCell.jsonNull → s.events ≠ RawCell.jsonNull →
        ∃ st, loadDataV2 y mIdx s = Except.ok st ∧
          (st.tasks = JsVal.arr seedTasks ∨ parsedOf s.tasks = some st.tasks) ∧
          (st.projects = JsVal.arr seedProjects ∨ parsedOf s.projects = some st.projects) ∧
          (st.documents = JsVal.arr seedDocuments ∨
            parsedOf s.documents = some st.documents) ∧
          (st.events = JsVal.arr (seedEvents y mIdx) ∨ parsedOf s.events = some st.events)) ∧
    (∀ (y mIdx : Nat) (s : RawStorage),
        s.tasks = RawCell.jsonNull → loadDataV2 y mIdx s = Except.error ()) := by
  have cell : ∀ {α : Type} (c : RawCell α) (seed : List α), c ≠ RawCell.jsonNull →
      ∃ v, loadCellV2 c seed = Except.ok v ∧
        (v = JsVal.arr seed ∨ parsedOf c = some v) := by
    intro α c seed hc
    cases c with
    | absent => exact ⟨_, rfl, Or.inl rfl⟩
    | malformed => exact ⟨_, rfl, Or.inl rfl⟩
    | jsonNull => exact absurd rfl hc
    | arr xs =>
      cases xs with
      | nil => exact ⟨_, rfl, Or.inl rfl⟩
      | cons a l => exact ⟨_, rfl, Or.inr rfl⟩
    | nonArr b =>
      cases b with
      | false => exact ⟨_, rfl, Or.inl rfl⟩
      | true => exact ⟨_, rfl, Or.inr rfl⟩
  constructor
  · intro y mIdx s h1 h2 h3 h4
    obtain ⟨vt, hvt, dt⟩ := cell s.tasks seedTasks h1
    obtain ⟨vp, hvp, dp⟩ := cell s.projects seedProjects h2
    obtain ⟨vd, hvd, dd⟩ := cell s.documents seedDocuments h3
    obtain ⟨ve, hve, de⟩ := cell s.events (seedEvents y mIdx) h4
    refine ⟨{ tasks := vt, projects := vp, documents := vd, events := ve }, ?_,
      dt, dp, dd, de⟩
    unfold loadDataV2
    rw [hvt, hvp, hvd, hve]
    rfl
  · intro y mIdx s h
    unfold loadDataV2
    rcases hP : loadCellV2 s.projects seedProjects with e | vp
    · cases e
      rfl
    · rw [h]
      rfl

/-- C5 witness: the amended recovery statement applied to the concrete
storage whose tasks cell is malformed and whose other cells are absent —
the enhanced revision recovers it entirely to the seed sets. -/
theorem load_robustness_witness :
    (c5BadStorage.tasks ≠ RawCell.jsonNull ∧ c5BadStorage.projects ≠ RawCell.jsonNull ∧
     c5BadStorage.documents ≠ RawCell.jsonNull ∧ c5BadStorage.events ≠ RawCell.jsonNull) ∧
    (∃ st, loadDataV2 2025 9 c5BadStorage = Except.ok st ∧
      (st.tasks = JsVal.arr seedTasks ∨ parsedOf c5BadStorage.tasks = some st.tasks) ∧
      (st.projects = JsVal.arr seedProjects ∨
        parsedOf c5BadStorage.projects = some st.projects) ∧
      (st.documents = JsVal.arr seedDocuments ∨
        parsedOf c5BadStorage.documents = some st.documents) ∧
      (st.events = JsVal.arr (seedEvents 2025 9) ∨
        parsedOf c5BadStorage.events = some st.events)) :=
  ⟨⟨by decide, by decide, by decide, by decide⟩,
    load_robustness_amended.1 2025 9 c5BadStorage
      (by decide) (by decide) (by decide) (by decide)⟩

/-- C8 counterexample: an edit submission whose title is whitespace only
is not persisted, but the stored in-memory task is mutated before the
check — its fields (including the now-empty title) are overwritten, so the
store state is not identical to the state before the submission. -/
theorem validation_counterexample :
    (editTaskSubmit c8State c8Storage "a8" c8Form).2 = c8Storage ∧
    (editTaskSubmit c8State c8Storage "a8" c8Form).1.tasks ≠ c8State.tasks ∧
    (editTaskSubmit c8State c8Storage "a8" c8Form).1.tasks.map Task.title = [""] ∧
    jsTrim " " = "" := by decide

/-- C8 (amended): a create-task submission whose trimmed title is empty is
fully blocked before any commit — the task list and the persisted flag are
untouched; an edit-task submission whose trimmed title is empty persists
nothing and pushes nothing (the list length is unchanged), but the matched
in-memory task has already been overwritten with the form values, leaving
its title empty. -/
theorem validation_amended :
    (∀ (tasks : List Task) (newId : String) (f : AddFormP0) (now : String),
        jsTrim f.title = "" → addTaskSubmitP0 tasks newId f now = (tasks, false)) ∧
    (∀ (st : AtlasState) (sto : Storage) (tid : String) (f : EditForm),
        jsTrim f.title = "" →
          (editTaskSubmit st sto tid f).2 = sto ∧
          (editTaskSubmit st sto tid f).1.tasks.length = st.tasks.length ∧
          ∀ t ∈ (editTaskSubmit st sto tid f).1.tasks, t ∈ st.tasks ∨ t.title = "") := by
  constructor
  · intro tasks newId f now h
    simp [addTaskSubmitP0, h]
  · intro st sto tid f h
    unfold editTaskSubmit
    rcases hfind : st.tasks.find? (fun x => x.id == tid) with _ | t0
    · rw [hfind]
      exact ⟨rfl, rfl, fun t ht => Or.inl ht⟩
    · rw [hfind]
      have hbeq : (jsTrim f.title == "") = true := by simp [h]
      rw [hbeq]
      refine ⟨rfl, setFirst_length _ _ _, ?_⟩
      intro t2 ht2
      rcases setFirst_mem _ _ _ _ ht2 with hm | ⟨x, hx, htx⟩
      · exact Or.inl hm
      · right
        rw [htx]
        exact h

/-- C8 witness: the amended statement applied to the whitespace-title add
form and the whitespace-title edit form on a concrete store. -/
theorem validation_witness :
    jsTrim c8Form.title = "" ∧ jsTrim c8AddForm.title = "" ∧
    addTaskSubmitP0 [c8Task] "n1" c8AddForm "2025-10-11" = ([c8Task], false) ∧
    (editTaskSubmit c8State c8Storage "a8" c8Form).2 = c8Storage :=
  ⟨by decide, by decide,
    validation_amended.1 [c8Task] "n1" c8AddForm "2025-10-11" (by decide),
    (validation_amended.2 c8State c8Storage "a8" c8Form (by decide)).1⟩

/-- C9 counterexample: the enhanced revision's edit-modal delete button
removes the task and persists immediately; no confirmation is ever
requested, so the commit happens even when the user would have declined. -/
theorem delete_confirmation_counterexample :
    (btnDelTask false c9State c9Storage "a9").1.tasks = [] ∧
    (btnDelTask false c9State c9Storage "a9").2.atlas_tasks = some [] ∧
    c9State.tasks ≠ [] := by decide

/-- C9 (amended): `deleteTask` of the `part_000` revision commits only
after an explicit confirmation — a declined confirmation leaves the task
list untouched and persists nothing, an accepted one removes exactly the
tasks with the given id and persists; the enhanced revision's edit-modal
delete button instead removes the task and persists irrespective of any
confirmation. -/
theorem delete_confirmation_amended :
    (∀ (ts : List Task) (tid : String), deleteTaskP0 false ts tid = (ts, false)) ∧
    (∀ (ts : List Task) (tid : String) (t : Task),
        (deleteTaskP0 true ts tid).2 = true ∧
        (t ∈ (deleteTaskP0 true ts tid).1 ↔ t ∈ ts ∧ t.id ≠ tid)) ∧
    (∀ (c : Bool) (st : AtlasState) (sto : Storage) (tid : String) (t : Task),
        st.tasks.any (fun x => x.id == tid) = true →
          (btnDelTask c st sto tid).2.atlas_tasks = some ((btnDelTask c st sto tid).1.tasks) ∧
          (t ∈ (btnDelTask c st sto tid).1.tasks ↔ t ∈ st.tasks ∧ t.id ≠ tid)) := by
  refine ⟨fun ts tid => rfl, ?_, ?_⟩
  · intro ts tid t
    constructor
    · rfl
    · simp [deleteTaskP0, List.mem_filter, bne_iff_ne]
  · intro c st sto tid t hany
    unfold btnDelTask
    rcases hfind : st.tasks.find? (fun x => x.id == tid) with _ | u
    · exfalso
      obtain ⟨x, hx, hxq⟩ := List.any_eq_true.1 hany
      exact List.find?_eq_none.1 hfind x hx hxq
    · have hu : u.id = tid := by
        have := List.find?_some hfind
        simpa using this
      rw [hfind]
      constructor
      · rfl
      · simp [List.mem_filter, bne_iff_ne, hu]

/-- C9 witness: the amended statement applied to the singleton store with
task id "a9" and a declined confirmation. -/
theorem delete_confirmation_witness :
    c9State.tasks.any (fun x => x.id == "a9") = true ∧
    (btnDelTask false c9State c9Storage "a9").2.atlas_tasks
      = some ((btnDelTask false c9State c9Storage "a9").1.tasks) :=
  ⟨by decide,
    (delete_confirmation_amended.2.2 false c9State c9Storage "a9" c9Task (by decide)).1⟩

/-- C1 counterexample: with two tasks sharing the title "Paint wall", an
exact-normalized-title query returns the second (last-inserted) task, not
the first-inserted one as claimed; and the empty query shows nothing at
all, although every title contains the empty string, so the claimed
precedence would return the first fuzzy match. -/
theorem resolver_counterexample :
    openTaskByIdOrName [cexTaskA, cexTaskB] "paint wall" = OpenResult.detail cexTaskB ∧
    cexTaskB ≠ cexTaskA ∧
    openTaskByIdOrName [cexTaskA, cexTaskB] "" = OpenResult.nothing ∧
    jsIncludes (jsLower cexTaskA.title) (jsNorm "") = true := by decide

/-- C1 (amended): for every non-empty query the resolver follows the
precedence id match, then exact normalized-title match, then fuzzy
containment, then placeholder — but on a repeated id or normalized title
the LAST task in collection order wins (the maps are built by overwriting
`set` calls), and the fuzzy step returns the first match in collection
order; an empty query shows nothing instead of a placeholder. -/
theorem resolver_amended :
    (∀ (ts : List Task) (q : String), q ≠ "" →
        openTaskByIdOrName ts q =
          match ts.reverse.find? (fun t => t.id == q) with
          | some t => OpenResult.detail t
          | none =>
            match ts.reverse.find? (fun t => jsNorm t.title == jsNorm q) with
            | some t => OpenResult.detail t
            | none =>
              match ts.find? (fun t =>
                  jsIncludes (jsLower t.title) (jsNorm q) ||
                  jsIncludes (jsNorm q) (jsLower t.title)) with
              | some t => OpenResult.detail t
              | none => OpenResult.placeholder q) ∧
    (∀ ts : List Task, openTaskByIdOrName ts "" = OpenResult.nothing) := by
  constructor
  · intro ts q hq
    unfold openTaskByIdOrName
    rw [if_neg (by simpa using hq), indexTasks_fst, indexTasks_snd]
  · intro ts
    rfl

/-- C1 witness: the amended precedence applied to a singleton store and an
exact id query. -/
theorem resolver_witness :
    ("w1" : String) ≠ "" ∧
    openTaskByIdOrName [w1Task] "w1" = OpenResult.detail w1Task := by
  refine ⟨by decide, ?_⟩
  have h := resolver_amended.1 [w1Task] "w1" (by decide)
  rw [h]
  decide

/-- C2 counterexample: `updateTaskStatus` commits the drop of task "t9"
onto the "done" column and persists, but leaves `updatedAt` at its old
value instead of the mutation time (any time distinct from the stored
timestamp, e.g. the one shown). -/
theorem updatedAt_counterexample :
    (updateTaskStatus c2State c2Storage "t9" "done").1.tasks.map Task.updatedAt
        = [some "2025-01-01T00:00:00.000Z"] ∧
    (updateTaskStatus c2State c2Storage "t9" "done").1.tasks.map Task.status = ["done"] ∧
    (updateTaskStatus c2State c2Storage "t9" "done").2.atlas_tasks
        = some (updateTaskStatus c2State c2Storage "t9" "done").1.tasks ∧
    ("2025-01-01T00:00:00.000Z" : String) ≠ "2025-10-11T12:00:00.000Z" := by decide

/-- C2 (amended): `updateTaskStatus` of the enhanced revision sets the
status and persists but never touches any task's `updatedAt`; only the
`part_000` drop handler updates `updatedAt` together with `status` in the
same committing step. -/
theorem updatedAt_amended :
    (∀ (st : AtlasState) (sto : Storage) (tid ns : String),
        (updateTaskStatus st sto tid ns).1.tasks.map Task.updatedAt
          = st.tasks.map Task.updatedAt) ∧
    (∀ (ts : List Task) (c q now : String),
        (ts.map Task.id).Nodup → ts.any (fun x => x.id == q) = true →
          dropCommitP0 ts (some c) q now =
            (ts.map (fun x =>
              if x.id == q then { x with status := c, updatedAt := some now } else x),
             true)) := by
  constructor
  · intro st sto tid ns
    unfold updateTaskStatus
    rcases hfind : st.tasks.find? (fun x => x.id == tid) with _ | t
    · rw [hfind]
    · rw [hfind]
      exact setFirst_map_of_fix (fun x => x.id == tid) (fun t => { t with status := ns })
        Task.updatedAt (fun x => rfl) st.tasks
  · intro ts c q now hnodup hany
    unfold dropCommitP0
    rw [indexTasks_fst]
    rcases hf : ts.reverse.find? (fun t => t.id == q) with _ | u
    · exfalso
      obtain ⟨x, hx, hxq⟩ := List.any_eq_true.1 hany
      exact List.find?_eq_none.1 hf x (List.mem_reverse.2 hx) hxq
    · rw [hf]
      show (setLast (fun x => x.id == q)
        (fun t => { t with status := c, updatedAt := some now }) ts, true) = _
      rw [setLast_eq_map _ _ _ (countP_id_le_one ts q hnodup)]

/-- C2 witness: the amended statement applied to the singleton store whose
only task has id "t9". -/
theorem updatedAt_witness :
    (([c2Task].map Task.id).Nodup ∧ [c2Task].any (fun x => x.id == "t9") = true) ∧
    dropCommitP0 [c2Task] (some "done") "t9" "2025-10-11T12:00:00.000Z" =
      ([c2Updated], true) := by
  refine ⟨⟨by decide, by decide⟩, ?_⟩
  have h := updatedAt_amended.2 [c2Task] "done" "t9" "2025-10-11T12:00:00.000Z"
    (by decide) (by decide)
  rw [h]
  decide

/-- C4 counterexample: after `reindexTasks`, looking up the case-folded,
trimmed title of the task " Foo " yields nothing — the map is keyed by the
raw title, not the normalized one; and `indexTasks` maps each normalized
title to a single (last) task, not to a list of ids. -/
theorem indexer_counterexample :
    jsMapGet (reindexTasks [c4Task]) (jsNorm " Foo ") = none ∧
    jsNorm " Foo " = "foo" ∧
    jsMapGet (reindexTasks [c4Task]) " Foo " = some ["a4"] ∧
    jsMapGet (indexTasks [c4Task]).2 "foo" = some c4Task := by decide

/-- C4 (amended): after `indexTasks` (`part_000`) the id map sends each
task id (ids unique) to its task, and the title map sends each normalized
title to the LAST task bearing it — a single task, not a list; after
`reindexTasks` (enhanced revision) the title map sends each RAW title —
not case-folded, not trimmed — to the list of ids of the tasks bearing
exactly that title, in insertion order, and no id map is built. -/
theorem indexer_amended :
    (∀ ts : List Task, (ts.map Task.id).Nodup →
        ∀ t ∈ ts, jsMapGet (indexTasks ts).1 t.id = some t) ∧
    (∀ (ts : List Task) (k : String),
        jsMapGet (indexTasks ts).2 k = ts.reverse.find? (fun t => jsNorm t.title == k)) ∧
    (∀ (ts : List Task) (k : String),
        jsMapGet (reindexTasks ts) k =
          if (ts.filter (fun t => t.title == k)).isEmpty then none
          else some ((ts.filter (fun t => t.title == k)).map Task.id)) := by
  refine ⟨?_, indexTasks_snd, reindex_lookup⟩
  intro ts hnodup t ht
  rw [indexTasks_fst]
  rcases hf : ts.reverse.find? (fun u => u.id == t.id) with _ | u
  · exfalso
    exact List.find?_eq_none.1 hf t (List.mem_reverse.2 ht) (by simp)
  · have hu1 : u.id = t.id := by
      have := List.find?_some hf
      simpa using this
    have hu2 : u ∈ ts := List.mem_reverse.1 (List.mem_of_find?_eq_some hf)
    have : u = t := List.inj_on_of_nodup_map hnodup hu2 ht hu1
    rw [hf, this]

/-- C4 witness: the amended id-map property applied to a singleton store. -/
theorem indexer_witness :
    (([c4wTask].map Task.id).Nodup ∧ c4wTask ∈ [c4wTask]) ∧
    jsMapGet (indexTasks [c4wTask]).1 c4wTask.id = some c4wTask :=
  ⟨⟨by decide, by decide⟩,
    indexer_amended.1 [c4wTask] (by decide) c4wTask (by decide)⟩

end ProjectAtlas
